import Mathlib

/-!
Verification development for the AQL compute-queue engine
(`src/core/runtime/amd_aql_queue.cpp` of the ROCR runtime).

The definitions below are a shallow embedding of the queue code:

* the legacy doorbell submission path (`AqlQueue::StoreRelaxed`),
* the ring-buffer sizing check in the constructor
  (`AqlQueue::AqlQueue`, `ComputeRingBufferMinPkts`, `ComputeRingBufferMaxPkts`),
* the dynamic scratch fault handler (`AqlQueue::DynamicScratchHandler`)
  together with `InitScratchSRD`,
* CU masking (`AqlQueue::SetCUMasking` / `GetCUMasking`),
* `AqlQueue::Inactivate` and `AqlQueue::SetPriority`.

Machine integers are modelled as `Nat` carrying the bit pattern, with
`% 2^32` / `% 2^64` inserted where the C++ code truncates.  Calls into the
kernel-mode driver, the agent and the signal subsystem are modelled as an
explicit action trace (`HAct`) plus oracle parameters for their results.
-/

/-- Numeric value of `2^32`, the wrap modulus of `uint32_t`. -/
def U32 : Nat := 2 ^ 32

/-- Numeric value of `2^64`, the wrap modulus of `uint64_t`. -/
def U64 : Nat := 2 ^ 64

/-- Status codes returned by the queue operations (subset of `hsa_status_t`
used in `amd_aql_queue.cpp`). -/
inductive HsaStatus where
  | success
  | error
  | invalidQueueCreation
  | outOfResources
  | invalidQueue
  | cuMaskReduced
  | incompatibleArguments
  | invalidAllocation
  | invalidCodeObject
  | invalidPacketFormat
  | invalidArgument
  | invalidIsa
  | memoryApertureViolation
  | illegalInstruction
  | exception
deriving DecidableEq, Repr

/-- Model of `AlignUp(value, alignment)` for the alignments used here (powers of two);
for a power-of-two alignment the bit-mask form used by the runtime equals
this rounded-up-quotient form. -/
def alignUp (x a : Nat) : Nat := (x + a - 1) / a * a

/-- Integer ceiling division `(x + y - 1) / y`, as written out in
`DynamicScratchHandler` for the group counts. -/
def ceilDiv (x y : Nat) : Nat := (x + y - 1) / y

/-- The scratch bookkeeping record `ScratchInfo` updated by the dynamic
scratch handler (field set as described by the spec; the defining header is
not part of the sources). `queue_base` is the address bit pattern, `0`
standing for `nullptr`. -/
structure ScratchInfo where
  queue_base : Nat
  size : Nat
  size_per_thread : Nat
  lanes_per_wave : Nat
  waves_per_group : Nat
  wanted_slots : Nat
  dispatch_size : Nat
  queue_process_offset : Nat
  large : Bool
  retry : Bool
deriving DecidableEq, Repr

/-- Externally visible side effects of the queue operations: agent calls,
KMD calls, signal stores and fences, in program order. -/
inductive HAct where
  | releaseQueueScratch
  | acquireQueueScratch (s : ScratchInfo)
  | signalAndRelaxed (mask : Nat)
  | signalStoreRelaxed (v : Nat)
  | signalStoreScRelease (v : Nat)
  | propsClearScratchOnceRelease
  | fenceRelease
  | fenceAcquire
  | suspendQueue
  | errorsCallback (e : HsaStatus)
  | setAsyncHandler (waitVal : Nat)
  | kmdDestroyQueue
  | kmdUpdateQueue (percent priority : Nat)
  | storePriority (priority : Nat)
deriving DecidableEq, Repr

/- ### Doorbell driver (legacy path of `AqlQueue::StoreRelaxed`) -/

/-- Static configuration of one queue as far as the doorbell path is
concerned: the doorbell variant reported by the agent, the GFX7/8
double-map workaround flag (an `int` that the constructor sets to 0 or 1),
whether the build is the large machine model (`HSA_LARGE_MODEL`), and the
power-of-two packet capacity `hsa_queue.size`. -/
structure DoorbellCfg where
  doorbell_type : Nat
  queue_full_workaround : Nat
  largeModel : Bool
  size : Nat
deriving DecidableEq, Repr

/-- The doorbell-relevant mutable queue record: `read_dispatch_id` and
`write_dispatch_id` (the GPU resp. the producers own them) and the
software proxy `max_legacy_doorbell_dispatch_id_plus_1`, all `uint64_t`. -/
structure LegacyDoorbell where
  read_dispatch_id : Nat
  write_dispatch_id : Nat
  max_legacy_doorbell_dispatch_id_plus_1 : Nat
deriving DecidableEq, Repr

/-- One MMIO doorbell write: the dispatch id published to
`max_legacy_doorbell_dispatch_id_plus_1` and the 32-bit value stored to the
hardware doorbell register. -/
structure MmioWrite where
  dispatch_id : Nat
  mmio : Nat
deriving DecidableEq, Repr

/-- Size in bytes of `core::AqlPacket`. -/
def aqlPacketBytes : Nat := 64

/-- The dispatch id computed by `StoreRelaxed` on the legacy path: `value + 1`
under `HSA_LARGE_MODEL`, otherwise the write index clamped to
`read_dispatch_id + hsa_queue.size` (`uint64_t` arithmetic). -/
def legacyDispatchId (cfg : DoorbellCfg) (st : LegacyDoorbell) (value : Nat) : Nat :=
  if cfg.largeModel then (value + 1) % U64
  else min st.write_dispatch_id ((st.read_dispatch_id + cfg.size) % U64)

/-- The legacy (`doorbell_type_ ≠ 2`) body of `AqlQueue::StoreRelaxed`,
between acquiring and releasing `legacy_doorbell_lock`: compute the
dispatch id, drop backward/duplicate doorbells, otherwise publish the id
and write the MMIO doorbell (ring dword offset for variant 0, truncated
index for variant 1). -/
def storeRelaxedLegacy (cfg : DoorbellCfg) (st : LegacyDoorbell) (value : Nat) :
    LegacyDoorbell × Option MmioWrite :=
  let d := legacyDispatchId cfg st value
  if st.max_legacy_doorbell_dispatch_id_plus_1 < d then
    let ev : Option MmioWrite :=
      if cfg.doorbell_type = 0 then
        some ⟨d, (d &&& ((1 + cfg.queue_full_workaround) * cfg.size - 1))
                   * (aqlPacketBytes / 4) % U32⟩
      else if cfg.doorbell_type = 1 then
        some ⟨d, d % U32⟩
      else none
    ({ st with max_legacy_doorbell_dispatch_id_plus_1 := d }, ev)
  else (st, none)

/-- One doorbell submission as seen by the legacy path: the values of
`read_dispatch_id` and `write_dispatch_id` at the time of the call (the GPU
and other producers advance them between calls) and the signal value the
producer rings with. -/
structure Submission where
  read : Nat
  write : Nat
  value : Nat
deriving DecidableEq, Repr

/-- Run a sequence of doorbell submissions through `storeRelaxedLegacy`,
threading `max_legacy_doorbell_dispatch_id_plus_1` and collecting the MMIO
writes together with the submission that caused each. -/
def runDoorbell (cfg : DoorbellCfg) : Nat → List Submission →
    Nat × List (Submission × MmioWrite)
  | m, [] => (m, [])
  | m, s :: rest =>
    let p := storeRelaxedLegacy cfg ⟨s.read, s.write, m⟩ s.value
    let r := runDoorbell cfg p.1.max_legacy_doorbell_dispatch_id_plus_1 rest
    (r.1, (match p.2 with
           | some ev => [(s, ev)]
           | none => []) ++ r.2)

/- ### Ring-buffer sizing (`AqlQueue::AqlQueue` lines 117-129) -/

/-- Model of `ComputeRingBufferMinPkts` (Linux path): 1024 bytes, raised to a 4 KiB
page when the GFX7/8 double-map workaround is active, in packets. -/
def computeRingBufferMinPkts (queue_full_workaround : Nat) : Nat :=
  let min_bytes := if queue_full_workaround = 1 then max 0x400 0x1000 else 0x400
  min_bytes / aqlPacketBytes

/-- Model of `ComputeRingBufferMaxPkts`: `2^32` bytes, halved when the double-map
workaround is active, in packets. -/
def computeRingBufferMaxPkts (queue_full_workaround : Nat) : Nat :=
  let max_bytes := if queue_full_workaround = 1 then 0x100000000 / 2 else 0x100000000
  max_bytes / aqlPacketBytes

/-- The constructor's clamping of the requested packet count: truncate
`size_t` to `uint32_t`, apply `Min` with the maximum and `Max` with the
minimum. -/
def clampQueueSizePkts (queue_full_workaround req_size_pkts : Nat) : Nat :=
  let q := req_size_pkts % U32
  max (min q (computeRingBufferMaxPkts queue_full_workaround))
      (computeRingBufferMinPkts queue_full_workaround)

/-- The constructor's ring-size validation: clamp the request, convert to
bytes in `uint32_t`, and throw `INVALID_QUEUE_CREATION` if the byte size
fails the `x & (x - 1)` power-of-two test (`uint32_t` wrap on both the
multiply and the decrement). -/
def aqlQueueValidateSize (queue_full_workaround req_size_pkts : Nat) :
    Except HsaStatus Nat :=
  let queue_size_pkts := clampQueueSizePkts queue_full_workaround req_size_pkts
  let queue_size_bytes := queue_size_pkts * aqlPacketBytes % U32
  if queue_size_bytes &&& ((queue_size_bytes + (U32 - 1)) % U32) ≠ 0 then
    .error .invalidQueueCreation
  else
    .ok queue_size_pkts

/- ### Dynamic scratch handler (`AqlQueue::DynamicScratchHandler`,
     `AqlQueue::InitScratchSRD`) -/

/-- The fields of a kernel-dispatch AQL packet that the scratch handler
reads (and, for the GFX8 old-microcode workaround, writes). -/
structure AqlDispatchPacket where
  header : Nat
  private_segment_size : Nat
  workgroup_size_x : Nat
  workgroup_size_y : Nat
  workgroup_size_z : Nat
  grid_size_x : Nat
  grid_size_y : Nat
  grid_size_z : Nat
deriving DecidableEq, Repr

/-- Per-queue constants the handler consults: agent properties, ISA and
microcode versions, ring capacity, the build-time `HandleExceptions`
template argument, and the agent's `AcquireQueueScratch` as an oracle that
maps the requested `ScratchInfo` to the granted one (it may set `retry`,
zero `queue_base`, or mark the allocation `large`). -/
structure HandlerEnv where
  numFComputeCores : Nat
  numSIMDPerCU : Nat
  maxSlotsScratchCU : Nat
  numShaderBanks : Nat
  isaMajor : Nat
  ucodeVersion : Nat
  ringSize : Nat
  profileFull : Bool
  handleExceptions : Bool
  acquireScratch : ScratchInfo → ScratchInfo

/-- Value of `amd_queue_.max_cu_id` as the constructor computes it:
`NumFComputeCores / NumSIMDPerCU - 1`. -/
def HandlerEnv.maxCuId (env : HandlerEnv) : Nat :=
  env.numFComputeCores / env.numSIMDPerCU - 1

/-- The `dynamicScratchState` bit-field, modelled from the spec as the
three flags `SCRATCH_RETRY`, `TERMINATE`, `DONE` (the defining header is
not part of the sources).  The handler's final `state = DONE` assignment
becomes `⟨false, false, true⟩`. -/
structure DScratchState where
  retry : Bool
  terminate : Bool
  done : Bool
deriving DecidableEq, Repr

/-- The scratch-related `amd_queue_` fields written by `InitScratchSRD`:
the four-word buffer resource descriptor (semantic fields; the packed
register layout lives in a header outside the sources), the flat-scratch
backing parameters and the two `COMPUTE_TMPRING_SIZE` bit-fields. -/
structure ScratchView where
  srd_base_lo : Nat
  srd_base_hi : Nat
  srd_stride : Nat
  srd_cache_swizzle : Nat
  srd_swizzle_enable : Nat
  srd_num_records : Nat
  srd_word3_atc : Bool
  srd_word3_gfx10 : Bool
  backing_location : Nat
  backing_size : Nat
  wave64_lane_byte_size : Nat
  tmpring_wavesize : Nat
  tmpring_waves : Nat
deriving DecidableEq, Repr

/-- Model of `AqlQueue::InitScratchSRD`: program the scratch SRD and the
`COMPUTE_TMPRING_SIZE` wave limits from the current `ScratchInfo`
(large-model build: the base address is split at bit 32). -/
def initScratchSRD (env : HandlerEnv) (s : ScratchInfo) : ScratchView :=
  let tmpring :=
    if s.size = 0 then (0, 0)
    else
      let num_cus := env.numFComputeCores / env.numSIMDPerCU
      let max_scratch_waves := num_cus * env.maxSlotsScratchCU
      let wave_scratch := (s.lanes_per_wave * s.size_per_thread + 1023) / 1024
      let num_waves := s.size / (wave_scratch * 1024)
      (wave_scratch, min num_waves max_scratch_waves)
  { srd_base_lo := s.queue_base % U32
    srd_base_hi := s.queue_base / U32 % U32
    srd_stride := 0
    srd_cache_swizzle := 0
    srd_swizzle_enable := 1
    srd_num_records := s.size % U32
    srd_word3_atc := env.profileFull
    srd_word3_gfx10 := decide (10 ≤ env.isaMajor)
    backing_location := s.queue_process_offset
    backing_size := s.size
    wave64_lane_byte_size := s.size_per_thread * s.lanes_per_wave / 64 % U32
    tmpring_wavesize := tmpring.1
    tmpring_waves := tmpring.2 }

/-- The scratch sizing computed by the insufficient-scratch branch
(`error_code & 0x401`), written into `queue_scratch_` before the agent's
`AcquireQueueScratch` call.  The multiplications that the C++ code performs
in `uint64_t` (or `uint32_t` for `MaxScratchSlots`) carry the matching
truncations. -/
def scratchSizing (env : HandlerEnv) (ec : Nat) (pkt : AqlDispatchPacket)
    (s : ScratchInfo) : ScratchInfo :=
  let maxScratchSlots := (env.maxCuId + 1) * env.maxSlotsScratchCU % U32
  let lanes := if ec &&& 0x400 ≠ 0 then 32 else 64
  let spt := alignUp pkt.private_segment_size (1024 / lanes)
  let size := spt * maxScratchSlots % U64 * lanes % U64
  let lanes_per_group :=
    pkt.workgroup_size_x * pkt.workgroup_size_y % U64 * pkt.workgroup_size_z % U64
  let waves_per_group := (lanes_per_group + lanes - 1) / lanes
  let groups :=
    ceilDiv pkt.grid_size_x pkt.workgroup_size_x
      * ceilDiv pkt.grid_size_y pkt.workgroup_size_y % U64
      * ceilDiv pkt.grid_size_z pkt.workgroup_size_z % U64
  let groups := ceilDiv groups env.numShaderBanks * env.numShaderBanks % U64
  let wanted := min (groups * waves_per_group % U64) maxScratchSlots
  let dispatch_size := spt * wanted % U64 * lanes % U64
  { s with
    size_per_thread := spt
    lanes_per_wave := lanes
    size := size
    waves_per_group := waves_per_group
    wanted_slots := wanted
    dispatch_size := dispatch_size }

/-- The exception decoding table of the `HandleExceptions` branch of
`DynamicScratchHandler`: error kind and the `fatal` flag. -/
def queueErrorCodeOf (ec : Nat) : HsaStatus × Bool :=
  if ec &&& 2 = 2 then (.incompatibleArguments, false)
  else if ec &&& 4 = 4 then (.invalidAllocation, false)
  else if ec &&& 8 = 8 then (.invalidCodeObject, false)
  else if ec &&& 32 = 32 ∨ ec &&& 256 = 256 then (.invalidPacketFormat, false)
  else if ec &&& 64 = 64 then (.invalidArgument, false)
  else if ec &&& 128 = 128 then (.invalidIsa, false)
  else if ec &&& 0x20000000 = 0x20000000 then (.memoryApertureViolation, false)
  else if ec &&& 0x40000000 = 0x40000000 then (.illegalInstruction, false)
  else if ec &&& 0x80000000 = 0x80000000 then (.exception, true)
  else (.error, true)

/-- Patch a packet header to a SYSTEM release fence scope
(`HSA_PACKET_HEADER_SCRELEASE_FENCE_SCOPE = 9`, width 2,
`HSA_FENCE_SCOPE_SYSTEM = 2`; public HSA ABI constants, the header is not
part of the sources). -/
def patchHeaderScRelease (h : Nat) : Nat :=
  h &&& (0xFFFF ^^^ (3 <<< 9)) ||| (2 <<< 9)

/-- The queue state the dynamic scratch handler touches. `signalValue` is
the 64-bit pattern of `queue_inactive_signal`, `packets` the ring-buffer
contents by slot, `view` the scratch fields of `amd_queue_`. -/
structure HState where
  dss : DScratchState
  scratch : ScratchInfo
  useScratchOnce : Bool
  signalValue : Nat
  read_dispatch_id : Nat
  packets : Nat → AqlDispatchPacket
  suspended : Bool
  view : ScratchView

/-- Model of `AqlQueue::DynamicScratchHandler` as a state transformer: returns the
new queue state, the handler's boolean result (`true` = stay armed), and
the trace of external actions in program order. -/
def dynamicScratchHandler (env : HandlerEnv) (st0 : HState) (ec0 : Nat) :
    HState × Bool × List HAct :=
  let retryActive := st0.dss.retry
  let st1 :=
    if retryActive then
      { st0 with
        dss := { st0.dss with retry := false }
        signalValue := st0.signalValue &&& (2 ^ 63 - 1) }
    else st0
  let acts0 : List HAct := if retryActive then [.signalAndRelaxed (2 ^ 63 - 1)] else []
  let ec := if retryActive then ec0 &&& (2 ^ 63 - 1) else ec0
  if st1.dss.terminate then
    ({ st1 with dss := ⟨false, false, true⟩ }, false,
      acts0 ++ [.signalStoreScRelease (U64 - 1)])
  else if ec = 512 then
    let s' := { st1.scratch with
                queue_base := 0, size := 0, size_per_thread := 0
                queue_process_offset := 0 }
    ({ st1 with
       scratch := s'
       view := initScratchSRD env s'
       signalValue := 0
       useScratchOnce := false },
     true,
     acts0 ++ [.releaseQueueScratch, .signalStoreRelaxed 0,
               .propsClearScratchOnceRelease, .fenceRelease])
  else if ec &&& 0x401 ≠ 0 then
    let slot := st1.read_dispatch_id &&& (env.ringSize - 1)
    let pkt := st1.packets slot
    let sNew := scratchSizing env ec pkt st1.scratch
    let sAcq := env.acquireScratch sNew
    let actsA := acts0 ++ [.releaseQueueScratch, .acquireQueueScratch sNew]
    if sAcq.retry then
      ({ st1 with scratch := sAcq, dss := { st1.dss with retry := true } }, false,
        actsA ++ [.setAsyncHandler ec])
    else if sAcq.queue_base = 0 then
      ({ st1 with scratch := sAcq, suspended := true, dss := ⟨false, false, true⟩ },
        false,
        actsA ++ [.suspendQueue, .errorsCallback .outOfResources,
                  .signalStoreScRelease (U64 - 1)])
    else
      let packets' :=
        if sAcq.large ∧ env.isaMajor = 8 ∧ env.ucodeVersion < 729 then
          fun i => if i = slot then
              { st1.packets slot with
                header := patchHeaderScRelease (st1.packets slot).header }
            else st1.packets i
        else st1.packets
      let once' := if sAcq.large then true else st1.useScratchOnce
      let st2 := { st1 with
                   scratch := sAcq
                   packets := packets'
                   useScratchOnce := once'
                   view := initScratchSRD env sAcq
                   signalValue := 0 }
      if retryActive then
        (st2, false, actsA ++ [.signalStoreScRelease 0, .setAsyncHandler 0])
      else
        (st2, true, actsA ++ [.signalStoreScRelease 0])
  else if env.handleExceptions then
    ({ st1 with suspended := true, dss := ⟨false, false, true⟩ }, false,
      acts0 ++ [.suspendQueue, .errorsCallback (queueErrorCodeOf ec).1,
                .signalStoreScRelease (U64 - 1)])
  else
    let st2 := { st1 with signalValue := 0 }
    if retryActive then
      (st2, false, acts0 ++ [.signalStoreRelaxed 0, .setAsyncHandler 0])
    else
      (st2, true, acts0 ++ [.signalStoreRelaxed 0])

/- ### CU masking (`AqlQueue::SetCUMasking` / `AqlQueue::GetCUMasking`) -/

/-- The tail mask trimming the last mask dword to the physical CU count:
`(1 << (cu_count % 32)) - 1` in `uint32_t` (zero when `cu_count` is a
multiple of 32, in which case no trimming happens). -/
def cuTailMask (cu_count : Nat) : Nat := 2 ^ (cu_count % 32) - 1

/-- The mask vector before the global mask is applied: `mask_dwords` all-ones
dwords on a reset request (`num = 0`), otherwise the first `num / 32` dwords
of the caller's buffer. -/
def initialUserMask (mask_dwords num : Nat) (user : List Nat) : List Nat :=
  if num = 0 then List.replicate mask_dwords 0xFFFFFFFF
  else user.take (num / 32)

/-- Result of `SetCUMasking`: the cached `cu_mask_` after the call, the
returned status, and the mask handed to `hsaKmtSetQueueCUMask` when that
call was made. -/
structure CUMaskResult where
  cached : List Nat
  status : HsaStatus
  kmdMask : Option (List Nat)
deriving DecidableEq, Repr

/-- The mask `SetCUMasking` computes and applies: read or synthesize the
user dwords, AND with the global mask (truncating to the shortest of the
user / global / physical dword counts; truncate to the physical count alone
when no global mask exists), and trim the last dword by the tail mask when
the mask spans all physical dwords and `cu_count` is not a multiple of 32. -/
def cuAppliedMask (cu_count num : Nat) (global_mask user : List Nat) : List Nat :=
  let mask_dwords := (cu_count + 31) / 32
  let tail_mask := cuTailMask cu_count
  let mask0 := initialUserMask mask_dwords num user
  let mask1 :=
    if global_mask.isEmpty then
      mask0.take (min mask0.length mask_dwords)
    else
      let limit := min global_mask.length (min mask0.length mask_dwords)
      List.zipWith (fun a b => a &&& b) (mask0.take limit) (global_mask.take limit)
  if mask1.length = mask_dwords ∧ tail_mask ≠ 0 then
    mask1.set (mask_dwords - 1) ((mask1.getD (mask_dwords - 1) 0) &&& tail_mask)
  else mask1

/-- Model of the clipping detection in `SetCUMasking`: only run when a global mask exists;
set when a nonzero user dword is dropped past the truncation limit or a
requested bit is removed by the global mask. -/
def cuClipped (cu_count num : Nat) (global_mask user : List Nat) : Bool :=
  let mask_dwords := (cu_count + 31) / 32
  let mask0 := initialUserMask mask_dwords num user
  if global_mask.isEmpty then false
  else
    let limit := min global_mask.length (min mask0.length mask_dwords)
    ((mask0.drop limit).any fun x => x ≠ 0)
      || (((mask0.take limit).zip (global_mask.take limit)).any
            fun p => p.1 &&& (0xFFFFFFFF ^^^ p.2) ≠ 0)

/-- Model of `AqlQueue::SetCUMasking`. `cu_count` is the agent's physical CU count,
`global_mask` the process-global CU mask flag, `cached` the current
`cu_mask_`, `kmdOK` the oracle for the `hsaKmtSetQueueCUMask` result.
The KMD call is skipped only for a default mask during queue
initialization; on KMD failure the cache is left unchanged. -/
def setCUMasking (cu_count : Nat) (global_mask cached : List Nat) (kmdOK : Bool)
    (num : Nat) (user : List Nat) : CUMaskResult :=
  let mask2 := cuAppliedMask cu_count num global_mask user
  let clipped := cuClipped cu_count num global_mask user
  if cached ≠ [] ∨ num ≠ 0 ∨ ¬global_mask.isEmpty then
    if kmdOK then
      ⟨mask2, if clipped then .cuMaskReduced else .success, some mask2⟩
    else
      ⟨cached, .error, some mask2⟩
  else
    ⟨mask2, if clipped then .cuMaskReduced else .success, none⟩

/-- Model of `AqlQueue::GetCUMasking`: the first `num / 32` dwords of the caller's
buffer after the call — the cached mask, zero-filled past its length. -/
def getCUMasking (cached : List Nat) (num : Nat) : List Nat :=
  cached.take (num / 32) ++ List.replicate (num / 32 - cached.length) 0

/- ### Queue lifecycle (`AqlQueue::Inactivate`) -/

/-- The lifecycle state `Inactivate` touches: the `active_` flag and a
count of `hsaKmtDestroyQueue` calls made so far. -/
structure LifecycleState where
  active : Bool
  kmdDestroyCount : Nat
deriving DecidableEq, Repr

/-- Model of `AqlQueue::Inactivate`: atomically exchange `active_` with `false`;
only the exchange that observed `true` calls `hsaKmtDestroyQueue` and
issues an acquire fence; always returns `HSA_STATUS_SUCCESS`. -/
def inactivate (st : LifecycleState) : LifecycleState × HsaStatus × List HAct :=
  let wasActive := st.active
  let st' := { st with active := false }
  if wasActive then
    ({ st' with kmdDestroyCount := st'.kmdDestroyCount + 1 }, .success,
      [.kmdDestroyQueue, .fenceAcquire])
  else (st', .success, [])

/- ### Priority (`AqlQueue::SetPriority`) -/

/-- The state `SetPriority` touches: the `suspended_` flag and the cached
`priority_`. -/
structure QueuePriorityState where
  suspended : Bool
  priority : Nat
deriving DecidableEq, Repr

/-- Model of `AqlQueue::SetPriority`: rejected with `INVALID_QUEUE` while suspended;
otherwise store the new priority into `priority_` and call
`hsaKmtUpdateQueue` at percentage 100 (`kmdOK` is the oracle for its
result), mapping failure to `OUT_OF_RESOURCES`. -/
def setPriority (kmdOK : Bool) (st : QueuePriorityState) (p : Nat) :
    QueuePriorityState × HsaStatus × List HAct :=
  if st.suspended then (st, .invalidQueue, [])
  else
    ({ st with priority := p },
     if kmdOK then .success else .outOfResources,
     [.storePriority p, .kmdUpdateQueue 100 p])

/- ### Theorems -/

/-- C7: `Inactivate` is idempotent: it atomically transitions `active` from
true to false, calls KMD `DestroyQueue` followed by an acquire fence only on
the transitioning call, and every call — including a second or later call,
which performs no KMD action — returns `HSA_STATUS_SUCCESS`. -/
theorem inactivate_idempotent (st : LifecycleState) :
    (inactivate st).2.1 = .success ∧
    (inactivate (inactivate st).1).2.1 = .success ∧
    (st.active = true → (inactivate st).2.2 = [.kmdDestroyQueue, .fenceAcquire]) ∧
    (st.active = false → (inactivate st).2.2 = []) ∧
    (inactivate (inactivate st).1).2.2 = [] ∧
    (inactivate (inactivate st).1).1 = (inactivate st).1 := by
  obtain ⟨a, k⟩ := st
  cases a <;> simp [inactivate]

/-- Witness for `inactivate_idempotent` at a concrete active state. -/
theorem inactivate_idempotent_witness :
    (inactivate ⟨true, 0⟩).2.1 = .success ∧
    (inactivate (inactivate ⟨true, 0⟩).1).2.1 = .success ∧
    ((⟨true, 0⟩ : LifecycleState).active = true →
      (inactivate ⟨true, 0⟩).2.2 = [.kmdDestroyQueue, .fenceAcquire]) ∧
    ((⟨true, 0⟩ : LifecycleState).active = false → (inactivate ⟨true, 0⟩).2.2 = []) ∧
    (inactivate (inactivate ⟨true, 0⟩).1).2.2 = [] ∧
    (inactivate (inactivate ⟨true, 0⟩).1).1 = (inactivate ⟨true, 0⟩).1 :=
  inactivate_idempotent ⟨true, 0⟩

/-- C9: `SetPriority` on a suspended queue returns `INVALID_QUEUE` and makes
no KMD call; otherwise it calls `hsaKmtUpdateQueue` with percentage 100 and
the new priority and returns `SUCCESS` exactly when the KMD call succeeds,
`OUT_OF_RESOURCES` otherwise. -/
theorem setPriority_spec (kmdOK : Bool) (st : QueuePriorityState) (p : Nat) :
    (st.suspended = true → setPriority kmdOK st p = (st, .invalidQueue, [])) ∧
    (st.suspended = false →
      (setPriority kmdOK st p).2.2 = [.storePriority p, .kmdUpdateQueue 100 p] ∧
      (setPriority kmdOK st p).2.1
        = (if kmdOK then .success else .outOfResources)) := by
  obtain ⟨s, q⟩ := st
  cases s <;> simp [setPriority]

/-- Witness for `setPriority_spec` on a non-suspended queue with a failing
KMD call. -/
theorem setPriority_spec_witness :
    (setPriority false ⟨false, 0⟩ 2).2.2
        = [.storePriority 2, .kmdUpdateQueue 100 2] ∧
    (setPriority false ⟨false, 0⟩ 2).2.1
        = (if false then HsaStatus.success else .outOfResources) :=
  (setPriority_spec false ⟨false, 0⟩ 2).2 rfl

/-- C10: `SetPriority` on a non-suspended queue stores the new priority into
`priority_` before the KMD call, so after a failing call that returns
`OUT_OF_RESOURCES` the cached priority still equals the requested one. -/
theorem setPriority_caches_before_kmd (st : QueuePriorityState) (p : Nat)
    (h : st.suspended = false) :
    (setPriority false st p).2.1 = .outOfResources ∧
    (setPriority false st p).1.priority = p ∧
    (setPriority false st p).2.2 = [.storePriority p, .kmdUpdateQueue 100 p] := by
  obtain ⟨s, q⟩ := st
  subst h
  simp [setPriority]

/-- Witness for `setPriority_caches_before_kmd` at a concrete state. -/
theorem setPriority_caches_before_kmd_witness :
    (setPriority false ⟨false, 7⟩ 3).2.1 = .outOfResources ∧
    (setPriority false ⟨false, 7⟩ 3).1.priority = 3 ∧
    (setPriority false ⟨false, 7⟩ 3).2.2
        = [.storePriority 3, .kmdUpdateQueue 100 3] :=
  setPriority_caches_before_kmd ⟨false, 7⟩ 3 rfl

/-- C8: on a doorbell-variant-0 queue, every MMIO doorbell write for a
published dispatch id `d` stores
`(d & (((queue_full_workaround ? 2 : 1) * ring_size) - 1)) * 16`
truncated to 32 bits (16 dwords per 64-byte packet). -/
theorem storeRelaxed_variant0_mmio (cfg : DoorbellCfg) (st st' : LegacyDoorbell)
    (value : Nat) (ev : MmioWrite)
    (h0 : cfg.doorbell_type = 0) (hw : cfg.queue_full_workaround ≤ 1)
    (hpub : storeRelaxedLegacy cfg st value = (st', some ev)) :
    ev.mmio = (ev.dispatch_id
        &&& ((if cfg.queue_full_workaround = 0 then 1 else 2) * cfg.size - 1))
        * 16 % U32 := by
  have h12 : 1 + cfg.queue_full_workaround
      = (if cfg.queue_full_workaround = 0 then 1 else 2) := by
    interval_cases h : cfg.queue_full_workaround <;> simp
  by_cases hlt :
      st.max_legacy_doorbell_dispatch_id_plus_1 < legacyDispatchId cfg st value
  · have heq : storeRelaxedLegacy cfg st value =
        ({ st with max_legacy_doorbell_dispatch_id_plus_1 :=
            legacyDispatchId cfg st value },
         some ⟨legacyDispatchId cfg st value,
               (legacyDispatchId cfg st value
                  &&& ((1 + cfg.queue_full_workaround) * cfg.size - 1))
                 * (aqlPacketBytes / 4) % U32⟩) := by
      simp [storeRelaxedLegacy, h0, hlt]
    rw [heq] at hpub
    injection hpub with h1 h2
    injection h2 with h2
    subst h2
    simp [aqlPacketBytes, h12]
  · have heq : storeRelaxedLegacy cfg st value = (st, none) := by
      simp [storeRelaxedLegacy, hlt]
    rw [heq] at hpub
    exact absurd (congrArg Prod.snd hpub) (by simp)

/-- A backward or duplicate doorbell leaves the state unchanged and writes
nothing to MMIO. -/
theorem storeRelaxedLegacy_eq_none (cfg : DoorbellCfg) (st : LegacyDoorbell)
    (value : Nat)
    (h : ¬ st.max_legacy_doorbell_dispatch_id_plus_1 < legacyDispatchId cfg st value) :
    storeRelaxedLegacy cfg st value = (st, none) := by
  simp [storeRelaxedLegacy, h]

/-- A forward doorbell on a legacy variant publishes the computed dispatch id
and performs an MMIO write carrying it. -/
theorem storeRelaxedLegacy_eq_pub (cfg : DoorbellCfg) (st : LegacyDoorbell)
    (value : Nat) (hdt : cfg.doorbell_type ≤ 1)
    (h : st.max_legacy_doorbell_dispatch_id_plus_1 < legacyDispatchId cfg st value) :
    ∃ mm, storeRelaxedLegacy cfg st value =
      ({ st with max_legacy_doorbell_dispatch_id_plus_1 :=
          legacyDispatchId cfg st value },
       some ⟨legacyDispatchId cfg st value, mm⟩) := by
  interval_cases hdtv : cfg.doorbell_type
  · exact ⟨(legacyDispatchId cfg st value
        &&& ((1 + cfg.queue_full_workaround) * cfg.size - 1))
        * (aqlPacketBytes / 4) % U32, by simp [storeRelaxedLegacy, hdtv, h]⟩
  · exact ⟨legacyDispatchId cfg st value % U32,
      by simp [storeRelaxedLegacy, hdtv, h]⟩

/-- The dispatch ids published along a run strictly increase, starting above
the initial `max_legacy_doorbell_dispatch_id_plus_1`. -/
theorem runDoorbell_chain (cfg : DoorbellCfg) (hdt : cfg.doorbell_type ≤ 1)
    (subs : List Submission) : ∀ m0 : Nat,
    List.Chain (· < ·) m0
      ((runDoorbell cfg m0 subs).2.map fun p => p.2.dispatch_id) := by
  induction subs with
  | nil => intro m0; simp [runDoorbell]
  | cons s rest ih =>
    intro m0
    by_cases h : (⟨s.read, s.write, m0⟩ : LegacyDoorbell).max_legacy_doorbell_dispatch_id_plus_1
        < legacyDispatchId cfg ⟨s.read, s.write, m0⟩ s.value
    · obtain ⟨mm, hstep⟩ := storeRelaxedLegacy_eq_pub cfg _ s.value hdt h
      simp only [runDoorbell, hstep]
      exact List.Chain.cons h (ih _)
    · have hstep := storeRelaxedLegacy_eq_none cfg _ s.value h
      simp only [runDoorbell, hstep]
      exact ih m0

/-- In the small machine model every published dispatch id is bounded by
`read_dispatch_id + hsa_queue.size` sampled at that submission. -/
theorem runDoorbell_bound (cfg : DoorbellCfg) (hdt : cfg.doorbell_type ≤ 1)
    (hsm : cfg.largeModel = false)
    (subs : List Submission) : ∀ m0 : Nat, ∀ p ∈ (runDoorbell cfg m0 subs).2,
    p.1.read + cfg.size < U64 → p.2.dispatch_id ≤ p.1.read + cfg.size := by
  induction subs with
  | nil => intro m0 p hp; simp [runDoorbell] at hp
  | cons s rest ih =>
    intro m0 p hp hb
    by_cases h : (⟨s.read, s.write, m0⟩ : LegacyDoorbell).max_legacy_doorbell_dispatch_id_plus_1
        < legacyDispatchId cfg ⟨s.read, s.write, m0⟩ s.value
    · obtain ⟨mm, hstep⟩ := storeRelaxedLegacy_eq_pub cfg _ s.value hdt h
      simp only [runDoorbell, hstep] at hp
      rcases List.mem_append.1 hp with h1 | h2
      · have h1 := List.mem_singleton.1 h1
        subst h1
        show (⟨legacyDispatchId cfg ⟨s.read, s.write, m0⟩ s.value, mm⟩ :
            MmioWrite).dispatch_id ≤ s.read + cfg.size
        unfold legacyDispatchId
        rw [hsm]
        simp only [Bool.false_eq_true, if_false]
        calc min s.write ((s.read + cfg.size) % U64)
            ≤ (s.read + cfg.size) % U64 := Nat.min_le_right _ _
          _ = s.read + cfg.size := Nat.mod_eq_of_lt hb
      · exact ih _ p h2 hb
    · have hstep := storeRelaxedLegacy_eq_none cfg _ s.value h
      simp only [runDoorbell, hstep] at hp
      exact ih m0 p hp hb

/-- C1 (amended): on a legacy queue (doorbell variant 0 or 1) the dispatch
ids published for MMIO writes are strictly increasing; in the small machine
model each published id is at most `read_dispatch_id + hsa_queue.size` at
the time of delivery; and a submission whose computed dispatch id is at most
`max_legacy_doorbell_dispatch_id_plus_1` performs no MMIO write. -/
theorem doorbell_published_ids_monotone (cfg : DoorbellCfg)
    (hdt : cfg.doorbell_type ≤ 1) (m0 : Nat) (subs : List Submission) :
    List.Chain (· < ·) m0
      ((runDoorbell cfg m0 subs).2.map fun p => p.2.dispatch_id) ∧
    (∀ p ∈ (runDoorbell cfg m0 subs).2, cfg.largeModel = false →
      p.1.read + cfg.size < U64 → p.2.dispatch_id ≤ p.1.read + cfg.size) ∧
    (∀ st value,
      legacyDispatchId cfg st value ≤ st.max_legacy_doorbell_dispatch_id_plus_1 →
      storeRelaxedLegacy cfg st value = (st, none)) := by
  refine ⟨runDoorbell_chain cfg hdt subs m0, ?_, ?_⟩
  · intro p hp hsm hb
    exact runDoorbell_bound cfg hdt hsm subs m0 p hp hb
  · intro st value hle
    exact storeRelaxedLegacy_eq_none cfg st value (by omega)

/-- Witness for `doorbell_published_ids_monotone`: a concrete GFX7 run whose
published ids 64, 128 are strictly increasing. -/
theorem doorbell_published_ids_monotone_witness :
    List.Chain (· < ·) 0
      ((runDoorbell ⟨0, 1, false, 64⟩ 0 [⟨0, 64, 63⟩, ⟨64, 128, 127⟩]).2.map
        fun p => p.2.dispatch_id) :=
  (doorbell_published_ids_monotone ⟨0, 1, false, 64⟩ (by decide) 0
    [⟨0, 64, 63⟩, ⟨64, 128, 127⟩]).1

/-- C1 counterexample: the raw 32-bit values delivered to the MMIO doorbell
are not monotone on variant 0 — a GFX7 ring wrap sends 1024 and then 0 — and
under `HSA_LARGE_MODEL` a variant-1 delivery can exceed
`read_dispatch_id + hsa_queue.size` (101 > 0 + 64). -/
theorem doorbell_claim_counterexample :
    ((runDoorbell ⟨0, 1, true, 64⟩ 0 [⟨0, 64, 63⟩, ⟨64, 128, 127⟩]).2.map
        fun p => p.2.mmio) = [1024, 0] ∧
    ¬ List.Chain' (· ≤ ·) ([1024, 0] : List Nat) ∧
    ((runDoorbell ⟨1, 0, true, 64⟩ 0 [⟨0, 101, 100⟩]).2.map
        fun p => (p.1.read, p.2.mmio)) = [(0, 101)] ∧
    ¬ ((101 : Nat) ≤ 0 + 64) := by
  refine ⟨by decide, ?_, by decide, by decide⟩
  intro hch
  exact absurd (List.chain'_cons.1 hch).1 (by decide)

/-- A power of two passes the `x & (x - 1)` test. -/
theorem pow2_land_pred (k : Nat) : 2 ^ k &&& (2 ^ k - 1) = 0 := by
  apply Nat.eq_of_testBit_eq
  intro i
  rw [Nat.testBit_land, Nat.testBit_two_pow, Nat.testBit_two_pow_sub_one,
    Nat.zero_testBit]
  by_cases h : k = i
  · subst h; simp
  · simp [h]

/-- A positive number passing the `x & (x - 1)` test is a power of two. -/
theorem eq_pow2_of_land_pred (n : Nat) (h0 : 0 < n) (h : n &&& (n - 1) = 0) :
    n = 2 ^ Nat.log2 n := by
  by_contra hne
  have hk1 : 2 ^ Nat.log2 n ≤ n := Nat.log2_self_le (by omega)
  have hk2 : n < 2 ^ (Nat.log2 n + 1) := Nat.lt_log2_self
  have hlt : 2 ^ Nat.log2 n < n := lt_of_le_of_ne hk1 fun he => hne he.symm
  have hb1 : n.testBit (Nat.log2 n) = true := by
    rw [Nat.testBit_to_div_mod]
    have hdiv : n / 2 ^ Nat.log2 n = 1 :=
      Nat.div_eq_of_lt_le (by omega) (by rw [pow_succ] at hk2; omega)
    rw [hdiv]
    decide
  have hb2 : (n - 1).testBit (Nat.log2 n) = true := by
    rw [Nat.testBit_to_div_mod]
    have hdiv : (n - 1) / 2 ^ Nat.log2 n = 1 :=
      Nat.div_eq_of_lt_le (by omega) (by rw [pow_succ] at hk2; omega)
    rw [hdiv]
    decide
  have hbit : (n &&& (n - 1)).testBit (Nat.log2 n) = true := by
    rw [Nat.testBit_land, hb1, hb2]; rfl
  rw [h, Nat.zero_testBit] at hbit
  exact Bool.noConfusion hbit

/-- The constructor's byte-level power-of-two test, on the clamped packet
count within the sizing bounds, holds exactly when the packet count is a
power of two (the `uint32_t` overflow at `2^26` packets also passes, and
`2^26` is a power of two). -/
theorem bytesCheck (c : Nat) (hlo : 16 ≤ c) (hhi : c ≤ 2 ^ 26) :
    (c * 64 % U32 &&& (c * 64 % U32 + (U32 - 1)) % U32 = 0 ↔ ∃ k, c = 2 ^ k) := by
  by_cases hc26 : c = 2 ^ 26
  · subst hc26
    constructor
    · intro _; exact ⟨26, rfl⟩
    · intro _
      have h0 : 2 ^ 26 * 64 % U32 = 0 := by decide
      rw [h0, Nat.zero_and]
  · have hlt : c < 2 ^ 26 := lt_of_le_of_ne hhi hc26
    have h64 : c * 64 < U32 := by
      have hmul : c * 64 < 2 ^ 26 * 64 := by
        exact Nat.mul_lt_mul_of_lt_of_le hlt (le_refl 64) (by decide)
      calc c * 64 < 2 ^ 26 * 64 := hmul
        _ = U32 := by decide
    have hm : c * 64 % U32 = c * 64 := Nat.mod_eq_of_lt h64
    have hU : (1 : Nat) ≤ U32 := by decide
    have hpred : (c * 64 + (U32 - 1)) % U32 = c * 64 - 1 := by
      have he : c * 64 + (U32 - 1) = U32 + (c * 64 - 1) := by omega
      rw [he, Nat.add_mod_left]
      exact Nat.mod_eq_of_lt (by omega)
    rw [hm, hpred]
    constructor
    · intro h0
      have hpow := eq_pow2_of_land_pred (c * 64) (by omega) h0
      have hm6 : 6 ≤ Nat.log2 (c * 64) := by
        by_contra hlt6
        have h5 : Nat.log2 (c * 64) ≤ 5 := by omega
        have : (2 : Nat) ^ Nat.log2 (c * 64) ≤ 2 ^ 5 :=
          Nat.pow_le_pow_right (by omega) h5
        omega
      refine ⟨Nat.log2 (c * 64) - 6, ?_⟩
      have hsplit : (2 : Nat) ^ Nat.log2 (c * 64)
          = 2 ^ (Nat.log2 (c * 64) - 6) * 64 := by
        rw [show Nat.log2 (c * 64) = (Nat.log2 (c * 64) - 6) + 6 by omega, pow_add]
        norm_num
      rw [hsplit] at hpow
      omega
    · rintro ⟨k, rfl⟩
      have he : 2 ^ k * 64 = 2 ^ (k + 6) := by rw [pow_add]; norm_num
      rw [he]
      exact pow2_land_pred (k + 6)

/-- C2 (amended): the requested packet count is first clamped to
`[min_pkts, max_pkts]` (min 1024 bytes, raised to a 4 KiB page on legacy
GFX7/8; max `2^32` bytes, halved on legacy); construction fails with
`INVALID_QUEUE_CREATION` exactly when the clamped capacity is not a power of
two, and on success the realized capacity is a power of two within those
bounds. -/
theorem aqlQueueValidateSize_spec (w req : Nat) (hw : w ≤ 1) :
    (∀ c, aqlQueueValidateSize w req = .ok c →
      c = clampQueueSizePkts w req ∧ (∃ k, c = 2 ^ k) ∧
      computeRingBufferMinPkts w ≤ c ∧ c ≤ computeRingBufferMaxPkts w) ∧
    (∀ e, aqlQueueValidateSize w req = .error e →
      e = .invalidQueueCreation ∧ ¬ ∃ k, clampQueueSizePkts w req = 2 ^ k) := by
  have hw01 : w = 0 ∨ w = 1 := by omega
  have hminle : computeRingBufferMinPkts w ≤ clampQueueSizePkts w req := by
    simp only [clampQueueSizePkts]
    exact Nat.le_max_right _ _
  have hhi : clampQueueSizePkts w req ≤ computeRingBufferMaxPkts w := by
    simp only [clampQueueSizePkts]
    refine Nat.max_le.2 ⟨Nat.min_le_right _ _, ?_⟩
    rcases hw01 with rfl | rfl <;> decide
  have hlo16 : 16 ≤ clampQueueSizePkts w req :=
    le_trans (by rcases hw01 with rfl | rfl <;> decide) hminle
  have hhi26 : clampQueueSizePkts w req ≤ 2 ^ 26 :=
    le_trans hhi (by rcases hw01 with rfl | rfl <;> decide)
  have hiff := bytesCheck (clampQueueSizePkts w req) hlo16 hhi26
  have hval : aqlQueueValidateSize w req =
      (if clampQueueSizePkts w req * 64 % U32
            &&& (clampQueueSizePkts w req * 64 % U32 + (U32 - 1)) % U32 ≠ 0 then
         Except.error HsaStatus.invalidQueueCreation
       else Except.ok (clampQueueSizePkts w req)) := rfl
  by_cases hchk : clampQueueSizePkts w req * 64 % U32
      &&& (clampQueueSizePkts w req * 64 % U32 + (U32 - 1)) % U32 = 0
  · rw [hval, if_neg (by simpa using hchk)]
    constructor
    · intro c hok
      injection hok with hok
      subst hok
      exact ⟨rfl, hiff.1 hchk, hminle, hhi⟩
    · intro e herr
      exact Except.noConfusion herr
  · rw [hval, if_pos (by simpa using hchk)]
    constructor
    · intro c hok
      exact Except.noConfusion hok
    · intro e herr
      injection herr with herr
      subst herr
      refine ⟨rfl, fun hex => hchk (hiff.2 hex)⟩

/-- Witness for `aqlQueueValidateSize_spec`: a 1024-packet request on a
non-legacy queue is accepted as-is. -/
theorem aqlQueueValidateSize_spec_witness :
    1024 = clampQueueSizePkts 0 1024 ∧ (∃ k, (1024 : Nat) = 2 ^ k) ∧
    computeRingBufferMinPkts 0 ≤ 1024 ∧ 1024 ≤ computeRingBufferMaxPkts 0 :=
  (aqlQueueValidateSize_spec 0 1024 (by decide)).1 1024 rfl

/-- C2 counterexample: a request for 3 packets — not a power of two — does
not fail; it is clamped up to the 16-packet minimum and accepted. -/
theorem ringSize_claim_counterexample :
    aqlQueueValidateSize 0 3 = .ok 16 ∧ ∀ k, (3 : Nat) ≠ 2 ^ k := by
  constructor
  · rfl
  · intro k
    rcases Nat.lt_or_ge k 2 with h | h
    · interval_cases k <;> decide
    · have h4 : (4 : Nat) ≤ 2 ^ k := by
        calc (4 : Nat) = 2 ^ 2 := by norm_num
          _ ≤ 2 ^ k := Nat.pow_le_pow_right (by norm_num) h
      omega

/-- Witness for `storeRelaxed_variant0_mmio`: a concrete GFX7 doorbell ring
whose delivered value is the masked ring offset in dwords. -/
theorem storeRelaxed_variant0_mmio_witness :
    (⟨64, 1024⟩ : MmioWrite).mmio
      = ((⟨64, 1024⟩ : MmioWrite).dispatch_id
          &&& ((if (1 : Nat) = 0 then 1 else 2) * 64 - 1)) * 16 % U32 :=
  storeRelaxed_variant0_mmio ⟨0, 1, false, 64⟩ ⟨0, 64, 0⟩ ⟨0, 64, 64⟩ 63
    ⟨64, 1024⟩ rfl (by decide) rfl

/-- C4: with `TERMINATE` clear and (masked) error code exactly 512, the
dynamic scratch handler releases the queue's scratch, resets the
`ScratchInfo` fields to empty, rebuilds the scratch SRD from the emptied
record, stores 0 into the inactive signal, clears `USE_SCRATCH_ONCE` with a
release-ordered store followed by a release fence, and stays armed. -/
theorem dynamicScratchHandler_reclaim (env : HandlerEnv) (st : HState) (ec : Nat)
    (hT : st.dss.terminate = false)
    (hec : (if st.dss.retry then ec &&& (2 ^ 63 - 1) else ec) = 512) :
    (dynamicScratchHandler env st ec).2.1 = true ∧
    (dynamicScratchHandler env st ec).1.scratch
      = { st.scratch with
          queue_base := 0, size := 0, size_per_thread := 0
          queue_process_offset := 0 } ∧
    (dynamicScratchHandler env st ec).1.view
      = initScratchSRD env (dynamicScratchHandler env st ec).1.scratch ∧
    (dynamicScratchHandler env st ec).1.signalValue = 0 ∧
    (dynamicScratchHandler env st ec).1.useScratchOnce = false ∧
    (dynamicScratchHandler env st ec).2.2
      = (if st.dss.retry then [HAct.signalAndRelaxed (2 ^ 63 - 1)] else [])
          ++ [.releaseQueueScratch, .signalStoreRelaxed 0,
              .propsClearScratchOnceRelease, .fenceRelease] := by
  rcases hr : st.dss.retry with - | -
  · have hec' : ec = 512 := by simpa [hr] using hec
    simp [dynamicScratchHandler, hr, hT, hec']
  · have hec' : ec &&& (2 ^ 63 - 1) = 512 := by simpa [hr] using hec
    have hec'' : ec &&& 9223372036854775807 = 512 := hec'
    simp [dynamicScratchHandler, hr, hT, hec'']

/-- A concrete handler environment used by the witnesses below. -/
def wEnv : HandlerEnv :=
  { numFComputeCores := 256, numSIMDPerCU := 4, maxSlotsScratchCU := 32,
    numShaderBanks := 4, isaMajor := 9, ucodeVersion := 800, ringSize := 64,
    profileFull := true, handleExceptions := true, acquireScratch := id }

/-- A concrete kernel-dispatch packet used by the witnesses below. -/
def wPkt : AqlDispatchPacket :=
  { header := 2, private_segment_size := 256, workgroup_size_x := 64,
    workgroup_size_y := 1, workgroup_size_z := 1, grid_size_x := 4096,
    grid_size_y := 1, grid_size_z := 1 }

/-- A concrete queue state used by the witnesses below. -/
def wState : HState :=
  { dss := ⟨false, false, false⟩
    scratch := { queue_base := 4096, size := 1024, size_per_thread := 16,
                 lanes_per_wave := 64, waves_per_group := 1, wanted_slots := 1,
                 dispatch_size := 1024, queue_process_offset := 8,
                 large := false, retry := false }
    useScratchOnce := true
    signalValue := 512
    read_dispatch_id := 0
    packets := fun _ => wPkt
    suspended := false
    view := initScratchSRD
      { numFComputeCores := 256, numSIMDPerCU := 4, maxSlotsScratchCU := 32,
        numShaderBanks := 4, isaMajor := 9, ucodeVersion := 800, ringSize := 64,
        profileFull := true, handleExceptions := true, acquireScratch := id }
      { queue_base := 4096, size := 1024, size_per_thread := 16,
        lanes_per_wave := 64, waves_per_group := 1, wanted_slots := 1,
        dispatch_size := 1024, queue_process_offset := 8,
        large := false, retry := false } }

/-- Witness for `dynamicScratchHandler_reclaim` at a concrete queue state
with error code 512. -/
theorem dynamicScratchHandler_reclaim_witness :
    (dynamicScratchHandler wEnv wState 512).2.1 = true ∧
    (dynamicScratchHandler wEnv wState 512).1.scratch
      = { wState.scratch with
          queue_base := 0, size := 0, size_per_thread := 0
          queue_process_offset := 0 } ∧
    (dynamicScratchHandler wEnv wState 512).1.view
      = initScratchSRD wEnv (dynamicScratchHandler wEnv wState 512).1.scratch ∧
    (dynamicScratchHandler wEnv wState 512).1.signalValue = 0 ∧
    (dynamicScratchHandler wEnv wState 512).1.useScratchOnce = false ∧
    (dynamicScratchHandler wEnv wState 512).2.2
      = (if wState.dss.retry then [HAct.signalAndRelaxed (2 ^ 63 - 1)] else [])
          ++ [.releaseQueueScratch, .signalStoreRelaxed 0,
              .propsClearScratchOnceRelease, .fenceRelease] :=
  dynamicScratchHandler_reclaim wEnv wState 512 rfl rfl

/-- Two-step `uint64_t` truncation of a triple product below the modulus is
the product itself. -/
theorem mul3_mod_eq (a b c n : Nat) (hc : 1 ≤ c) (h : a * b * c < n) :
    a * b % n * c % n = a * b * c := by
  have hab : a * b < n :=
    lt_of_le_of_lt (Nat.le_mul_of_pos_right _ (by omega)) h
  rw [Nat.mod_eq_of_lt hab, Nat.mod_eq_of_lt h]

/-- C3: with `TERMINATE` clear and an error code with bit 0x1 or 0x401 set
(insufficient scratch), the handler recomputes the `ScratchInfo` it hands to
`AcquireQueueScratch` as: `lanes_per_wave` 32 on the 0x400 bit else 64;
`size_per_thread` the packet's private segment size aligned up to
`1024 / lanes_per_wave`; `size = size_per_thread · (max_cu_id+1) ·
MaxSlotsScratchCU · lanes_per_wave`; `wanted_slots = min(groups ·
waves_per_group, (max_cu_id+1) · MaxSlotsScratchCU)` with the group count
rounded up to a multiple of the shader-engine count; and `dispatch_size =
size_per_thread · wanted_slots · lanes_per_wave`.  The bound hypotheses
discharge the 32/64-bit truncations for non-overflowing dispatches. -/
theorem dynamicScratchHandler_sizing (env : HandlerEnv) (st : HState)
    (ec0 ec : Nat) (pkt : AqlDispatchPacket)
    (lanes spt M c1 c2 c3 wpg gr : Nat)
    (hecdef : ec = (if st.dss.retry then ec0 &&& (2 ^ 63 - 1) else ec0))
    (hpkt : pkt = st.packets (st.read_dispatch_id &&& (env.ringSize - 1)))
    (hT : st.dss.terminate = false)
    (hec : ec &&& 1025 ≠ 0)
    (hM : M = (env.maxCuId + 1) * env.maxSlotsScratchCU)
    (hlanes : lanes = if ec &&& 1024 ≠ 0 then 32 else 64)
    (hspt : spt = alignUp pkt.private_segment_size (1024 / lanes))
    (hc1 : c1 = ceilDiv pkt.grid_size_x pkt.workgroup_size_x)
    (hc2 : c2 = ceilDiv pkt.grid_size_y pkt.workgroup_size_y)
    (hc3 : c3 = ceilDiv pkt.grid_size_z pkt.workgroup_size_z)
    (hwpg : wpg = ceilDiv
      (pkt.workgroup_size_x * pkt.workgroup_size_y * pkt.workgroup_size_z) lanes)
    (hgr : gr = alignUp (c1 * c2 * c3) env.numShaderBanks)
    (hb1 : pkt.workgroup_size_x * pkt.workgroup_size_y < U64)
    (hb2 : pkt.workgroup_size_x * pkt.workgroup_size_y * pkt.workgroup_size_z < U64)
    (hbM : M < U32)
    (hbsz : spt * M * lanes < U64)
    (hb3 : c1 * c2 < U64)
    (hb4 : c1 * c2 * c3 < U64)
    (hb5 : gr < U64)
    (hb6 : gr * wpg < U64) :
    (∃ rest, (dynamicScratchHandler env st ec0).2.2 =
      (if st.dss.retry then [HAct.signalAndRelaxed (2 ^ 63 - 1)] else [])
        ++ [.releaseQueueScratch,
            .acquireQueueScratch (scratchSizing env ec pkt st.scratch)] ++ rest) ∧
    (scratchSizing env ec pkt st.scratch).lanes_per_wave = lanes ∧
    (scratchSizing env ec pkt st.scratch).size_per_thread = spt ∧
    (scratchSizing env ec pkt st.scratch).size = spt * M * lanes ∧
    (scratchSizing env ec pkt st.scratch).waves_per_group = wpg ∧
    (scratchSizing env ec pkt st.scratch).wanted_slots = min (gr * wpg) M ∧
    (scratchSizing env ec pkt st.scratch).dispatch_size
      = spt * min (gr * wpg) M * lanes := by
  have h512 : ec ≠ 512 := by
    intro h
    exact hec (by rw [h]; decide)
  have htrace : ∃ rest, (dynamicScratchHandler env st ec0).2.2 =
      (if st.dss.retry then [HAct.signalAndRelaxed (2 ^ 63 - 1)] else [])
        ++ [.releaseQueueScratch,
            .acquireQueueScratch (scratchSizing env ec pkt st.scratch)] ++ rest := by
    subst hpkt
    rcases hr : st.dss.retry with - | -
    · have hee : ec = ec0 := by rw [hecdef, hr]; simp
      subst hee
      simp only [dynamicScratchHandler]
      simp [hr, hT, h512, hec]
      split
      · exact ⟨[.setAsyncHandler ec], by simp⟩
      · split
        · exact ⟨[.suspendQueue, .errorsCallback .outOfResources,
            .signalStoreScRelease (U64 - 1)], by simp⟩
        · exact ⟨[.signalStoreScRelease 0], by simp⟩
    · have hee : ec = ec0 &&& (2 ^ 63 - 1) := by rw [hecdef, hr]; simp
      have h512N : ec0 &&& 9223372036854775807 ≠ 512 := hee ▸ h512
      have hecN : ec0 &&& 9223372036854775807 &&& 1025 ≠ 0 := hee ▸ hec
      subst hee
      simp only [dynamicScratchHandler]
      simp [hr, hT, h512N, hecN]
      split
      · exact ⟨[.setAsyncHandler (ec0 &&& 9223372036854775807)], by simp⟩
      · split
        · exact ⟨[.suspendQueue, .errorsCallback .outOfResources,
            .signalStoreScRelease (U64 - 1)], by simp⟩
        · exact ⟨[.signalStoreScRelease 0, .setAsyncHandler 0], by simp⟩
  subst hM hlanes hc1 hc2 hc3 hgr hwpg hspt
  refine ⟨htrace, ?_, ?_, ?_, ?_, ?_, ?_⟩ <;>
  · simp only [alignUp, ceilDiv] at hbsz hb3 hb4 hb5 hb6 ⊢
    have hMmod := Nat.mod_eq_of_lt hbM
    have hb1mod := Nat.mod_eq_of_lt hb1
    have hb2mod := Nat.mod_eq_of_lt hb2
    have hb3mod := Nat.mod_eq_of_lt hb3
    have hb4mod := Nat.mod_eq_of_lt hb4
    have hb5mod := Nat.mod_eq_of_lt hb5
    have hb6mod := Nat.mod_eq_of_lt hb6
    simp only [scratchSizing, alignUp, ceilDiv, hMmod, hb1mod, hb2mod, hb3mod,
      hb4mod, hb5mod, hb6mod]
    try rfl
    try
      exact mul3_mod_eq _ _ _ _ (by split <;> omega) hbsz
    try
      exact mul3_mod_eq _ _ _ _ (by split <;> omega)
        (lt_of_le_of_lt
          (Nat.mul_le_mul_right _
            (Nat.mul_le_mul_left _ (Nat.min_le_right _ _))) hbsz)

/-- Witness for `dynamicScratchHandler_sizing`: the spec's scratch-grow
scenario (`private_segment_size` 256, workgroup 64×1×1, grid 4096×1×1,
wave64 error code 1). -/
theorem dynamicScratchHandler_sizing_witness :
    (∃ rest, (dynamicScratchHandler wEnv wState 1).2.2 =
      (if wState.dss.retry then [HAct.signalAndRelaxed (2 ^ 63 - 1)] else [])
        ++ [.releaseQueueScratch,
            .acquireQueueScratch (scratchSizing wEnv 1 wPkt wState.scratch)]
        ++ rest) ∧
    (scratchSizing wEnv 1 wPkt wState.scratch).lanes_per_wave = 64 ∧
    (scratchSizing wEnv 1 wPkt wState.scratch).size_per_thread = 256 ∧
    (scratchSizing wEnv 1 wPkt wState.scratch).size = 256 * 2048 * 64 ∧
    (scratchSizing wEnv 1 wPkt wState.scratch).waves_per_group = 1 ∧
    (scratchSizing wEnv 1 wPkt wState.scratch).wanted_slots = min (64 * 1) 2048 ∧
    (scratchSizing wEnv 1 wPkt wState.scratch).dispatch_size
      = 256 * min (64 * 1) 2048 * 64 :=
  dynamicScratchHandler_sizing wEnv wState 1 1 wPkt 64 256 2048 64 1 1 1 64
    (by decide) rfl rfl (by decide) (by decide) (by decide) (by decide)
    (by decide) (by decide) (by decide) (by decide) (by decide) (by decide)
    (by decide) (by decide) (by decide) (by decide) (by decide) (by decide)
    (by decide)

/-- Reading through `take`, inside the taken range. -/
theorem getD_take_lt (l : List Nat) (n i : Nat) (h : i < n) :
    (l.take n).getD i 0 = l.getD i 0 := by
  rw [List.getD_eq_getElem?_getD, List.getD_eq_getElem?_getD, List.getElem?_take,
    if_pos h]

/-- A replicated-zero list reads 0 at every index. -/
theorem getD_replicate_zero (n i : Nat) : (List.replicate n (0 : Nat)).getD i 0 = 0 := by
  rcases Nat.lt_or_ge i n with h | h
  · rw [List.getD_eq_getElem?_getD, List.getElem?_replicate]
    simp [h]
  · exact List.getD_eq_default _ _ (by simp; omega)

/-- Reading through a bitwise-AND `zipWith`, inside both lists. -/
theorem getD_zipWith_and (a b : List Nat) (i : Nat) (ha : i < a.length)
    (hb : i < b.length) :
    (List.zipWith (fun x y => x &&& y) a b).getD i 0 = a.getD i 0 &&& b.getD i 0 := by
  rw [List.getD_eq_getElem?_getD, List.getElem?_zipWith,
    List.getElem?_eq_getElem ha, List.getElem?_eq_getElem hb,
    List.getD_eq_getElem?_getD, List.getD_eq_getElem?_getD,
    List.getElem?_eq_getElem ha, List.getElem?_eq_getElem hb]
  rfl

/-- Reading at the written index of `set`. -/
theorem getD_set_eq (l : List Nat) (i x : Nat) (h : i < l.length) :
    (l.set i x).getD i 0 = x := by
  rw [List.getD_eq_getElem?_getD, List.getElem?_set, if_pos rfl, if_pos h]
  rfl

/-- Reading away from the written index of `set`. -/
theorem getD_set_ne (l : List Nat) (i j x : Nat) (h : i ≠ j) :
    (l.set i x).getD j 0 = l.getD j 0 := by
  rw [List.getD_eq_getElem?_getD, List.getElem?_set, if_neg h,
    ← List.getD_eq_getElem?_getD]

/-- An element read in range satisfies any bound holding on the list. -/
theorem getD_lt_of_forall (l : List Nat) (i : Nat) (h : i < l.length)
    (hb : ∀ x ∈ l, x < 2 ^ 32) : l.getD i 0 < 2 ^ 32 := by
  rw [List.getD_eq_getElem?_getD, List.getElem?_eq_getElem h]
  exact hb _ (List.getElem_mem h)

/-- Masking a `uint32_t` value with 32 one bits is the identity. -/
theorem and_ffffffff (x : Nat) (h : x < 2 ^ 32) : x &&& 4294967295 = x := by
  have h32 : (4294967295 : Nat) = 2 ^ 32 - 1 := by norm_num
  rw [h32, Nat.and_pow_two_sub_one_eq_mod, Nat.mod_eq_of_lt h]

/-- The tail mask is zero exactly when the CU count fills its last dword. -/
theorem cuTailMask_eq_zero_iff (cu_count : Nat) :
    cuTailMask cu_count = 0 ↔ cu_count % 32 = 0 := by
  unfold cuTailMask
  constructor
  · intro h
    by_contra hne
    have h1 : 1 < 2 ^ (cu_count % 32) := Nat.one_lt_two_pow hne
    omega
  · intro h
    rw [h]
    rfl

/-- The per-dword mask of the physical-CU prefix: bits `[32i, 32(i+1))`
below `cu_count`. -/
def tailDword (cu_count i : Nat) : Nat :=
  if 32 * (i + 1) ≤ cu_count then 4294967295
  else if 32 * i < cu_count then 2 ^ (cu_count - 32 * i) - 1
  else 0

/-- The process-global mask read as an infinite dword sequence: all-ones when
absent, zero-extended past its length. -/
def globalExtended (g : List Nat) (i : Nat) : Nat :=
  if g.isEmpty then 4294967295 else g.getD i 0

/-- The status `SetCUMasking` returns when the KMD accepts the mask. -/
theorem setCUMasking_status_eq (cu_count num : Nat) (g cached m : List Nat) :
    (setCUMasking cu_count g cached true num m).status
      = (if cuClipped cu_count num g m then HsaStatus.cuMaskReduced else .success) := by
  unfold setCUMasking
  split <;> rfl

/-- C5 (amended): `SetCUMasking` returns `CU_MASK_REDUCED` exactly when a
process-global mask exists and it removes requested bits (`cuClipped`);
losses from the physical CU count alone are silent (no global mask ⇒ never
`CU_MASK_REDUCED`); and in the reduced case the reduced mask is still handed
to the KMD and cached. -/
theorem setCUMasking_clipping (cu_count num : Nat) (g cached m : List Nat) :
    ((setCUMasking cu_count g cached true num m).status = .cuMaskReduced ↔
      (g ≠ [] ∧ cuClipped cu_count num g m = true)) ∧
    (g = [] → (setCUMasking cu_count g cached true num m).status ≠ .cuMaskReduced) ∧
    ((setCUMasking cu_count g cached true num m).status = .cuMaskReduced →
      (setCUMasking cu_count g cached true num m).kmdMask
        = some (setCUMasking cu_count g cached true num m).cached) := by
  have hclip_empty : g = [] → cuClipped cu_count num g m = false := by
    intro h
    subst h
    simp [cuClipped]
  have h1 : (setCUMasking cu_count g cached true num m).status = .cuMaskReduced ↔
      (g ≠ [] ∧ cuClipped cu_count num g m = true) := by
    rw [setCUMasking_status_eq]
    by_cases hc : cuClipped cu_count num g m = true
    · rw [if_pos hc]
      constructor
      · intro _
        refine ⟨?_, hc⟩
        intro hg
        rw [hclip_empty hg] at hc
        exact Bool.noConfusion hc
      · intro _
        rfl
    · rw [if_neg hc]
      constructor
      · intro h
        exact absurd h (by simp)
      · intro h
        exact absurd h.2 hc
  refine ⟨h1, ?_, ?_⟩
  · intro hg h
    exact (h1.1 h).1 hg
  · intro h
    have hg : g ≠ [] := (h1.1 h).1
    have hcond : cached ≠ [] ∨ num ≠ 0 ∨ ¬g.isEmpty = true := by
      right; right
      simp [List.isEmpty_iff, hg]
    unfold setCUMasking
    rw [if_pos hcond]
    rfl

/-- Witness for `setCUMasking_clipping`: a global mask `[0xF]` clips the
request `[0xFF]`, and the reduced mask is applied and cached. -/
theorem setCUMasking_clipping_witness :
    (setCUMasking 32 [0xF] [] true 32 [0xFF]).kmdMask
      = some (setCUMasking 32 [0xF] [] true 32 [0xFF]).cached :=
  (setCUMasking_clipping 32 32 [0xF] [] [0xFF]).2.2 (by decide)

/-- C5 counterexample: with no global mask, a request whose only bit lies
beyond the 16 physical CUs is entirely removed (cached mask becomes `[0]`)
yet the call returns `SUCCESS`, not `CU_MASK_REDUCED`. -/
theorem setCUMasking_claim_counterexample :
    (setCUMasking 16 [] [0xFFFF] true 32 [0x10000]).status = .success ∧
    (setCUMasking 16 [] [0xFFFF] true 32 [0x10000]).cached = [0] ∧
    (0x10000 : Nat) ≠ 0 := by
  refine ⟨?_, ?_, by decide⟩ <;> rfl

/-- Lemma: `tailDword` is all-ones on dwords fully below the CU count. -/
theorem tailDword_full (cu i : Nat) (h : 32 * (i + 1) ≤ cu) :
    tailDword cu i = 4294967295 := by
  unfold tailDword
  rw [if_pos h]

/-- Lemma: `tailDword` is zero on dwords at or above the CU count. -/
theorem tailDword_zero (cu i : Nat) (h : cu ≤ 32 * i) :
    tailDword cu i = 0 := by
  unfold tailDword
  rw [if_neg (by omega), if_neg (by omega)]

/-- On the last physical dword of a CU count that is not a multiple of 32,
`tailDword` is the tail mask. -/
theorem tailDword_last (cu D : Nat) (hD : D = (cu + 31) / 32) (hcu : 0 < cu)
    (ht : cu % 32 ≠ 0) : tailDword cu (D - 1) = cuTailMask cu := by
  unfold tailDword cuTailMask
  rw [if_neg (by omega), if_pos (by omega)]
  congr 2
  omega

/-- The applied CU mask reads, dword by dword, as the synthesized user mask
ANDed with the (extended) global mask and the physical tail mask. -/
theorem cuAppliedMask_getD (cu_count num : Nat) (g m : List Nat)
    (hcu : 0 < cu_count)
    (hb : ∀ x ∈ initialUserMask ((cu_count + 31) / 32) num m, x < 2 ^ 32)
    (i : Nat) :
    (cuAppliedMask cu_count num g m).getD i 0
      = (initialUserMask ((cu_count + 31) / 32) num m).getD i 0
          &&& globalExtended g i &&& tailDword cu_count i := by
  set D := (cu_count + 31) / 32 with hD
  set M0 := initialUserMask D num m with hM0
  set t := cuTailMask cu_count with ht
  have hDpos : 0 < D := by omega
  have h32D : cu_count ≤ 32 * D := by omega
  have h32D1 : 32 * (D - 1) < cu_count := by omega
  rcases g with - | ⟨gh, gt⟩
  · -- no global mask
    set L := min M0.length D with hL
    have hgE : globalExtended [] i = 4294967295 := rfl
    have hunf : cuAppliedMask cu_count num [] m
        = (if (M0.take L).length = D ∧ t ≠ 0 then
             (M0.take L).set (D - 1) (((M0.take L).getD (D - 1) 0) &&& t)
           else M0.take L) := rfl
    rw [hunf, hgE]
    have hLM : L ≤ M0.length := by rw [hL]; exact Nat.min_le_left _ _
    have hLD : L ≤ D := by rw [hL]; exact Nat.min_le_right _ _
    have htklen : (M0.take L).length = L := by
      rw [List.length_take]
      exact Nat.min_eq_left hLM
    by_cases hiL : i < L
    · have hval : (M0.take L).getD i 0 = M0.getD i 0 := getD_take_lt _ _ _ hiL
      have hblt : M0.getD i 0 < 2 ^ 32 :=
        getD_lt_of_forall _ _ (lt_of_lt_of_le hiL hLM) hb
      have hff : M0.getD i 0 &&& 4294967295 = M0.getD i 0 := and_ffffffff _ hblt
      by_cases htrim : (M0.take L).length = D ∧ t ≠ 0
      · rw [if_pos htrim]
        have hLDe : L = D := by rw [← htklen]; exact htrim.1
        have htz : cu_count % 32 ≠ 0 := by
          intro h0
          exact htrim.2 (ht ▸ (cuTailMask_eq_zero_iff _).2 h0)
        by_cases hieq : i = D - 1
        · subst hieq
          rw [getD_set_eq _ _ _ (by rw [htklen]; omega), hval, hff,
            tailDword_last cu_count D hD hcu htz, ← ht]
        · rw [getD_set_ne _ _ _ _ (fun he => hieq he.symm), hval, hff,
            tailDword_full _ _ (by omega), hff]
      · rw [if_neg htrim, hval, hff]
        have h32 : 32 * (i + 1) ≤ cu_count := by
          rw [htklen] at htrim
          by_cases hLDe : L = D
          · have ht0 : t = 0 := by
              by_contra htne
              exact htrim ⟨hLDe, htne⟩
            have hcu0 : cu_count % 32 = 0 := (cuTailMask_eq_zero_iff _).1 (ht ▸ ht0)
            omega
          · omega
        rw [tailDword_full _ _ h32, hff]
    · have h0 : (if (M0.take L).length = D ∧ t ≠ 0 then
            (M0.take L).set (D - 1) (((M0.take L).getD (D - 1) 0) &&& t)
          else M0.take L).getD i 0 = 0 := by
        split
        · exact List.getD_eq_default _ _ (by rw [List.length_set, htklen]; omega)
        · exact List.getD_eq_default _ _ (by rw [htklen]; omega)
      rw [h0]
      rcases min_le_iff.1 (show min M0.length D ≤ i by omega) with hc | hc
      · rw [List.getD_eq_default _ _ hc, Nat.zero_and, Nat.zero_and]
      · rw [tailDword_zero _ _ (by omega), Nat.and_zero]
  · -- global mask present
    set G := gh :: gt with hG
    set L := min G.length (min M0.length D) with hL
    have hgE : globalExtended G i = G.getD i 0 := rfl
    have hunf : cuAppliedMask cu_count num G m
        = (if (List.zipWith (fun a b => a &&& b) (M0.take L) (G.take L)).length = D
              ∧ t ≠ 0 then
             (List.zipWith (fun a b => a &&& b) (M0.take L) (G.take L)).set (D - 1)
               (((List.zipWith (fun a b => a &&& b) (M0.take L) (G.take L)).getD
                   (D - 1) 0) &&& t)
           else List.zipWith (fun a b => a &&& b) (M0.take L) (G.take L)) := rfl
    rw [hunf, hgE]
    have hLM : L ≤ M0.length := by
      rw [hL]
      exact le_trans (Nat.min_le_right _ _) (Nat.min_le_left _ _)
    have hLG : L ≤ G.length := by rw [hL]; exact Nat.min_le_left _ _
    have hLD : L ≤ D := by
      rw [hL]
      exact le_trans (Nat.min_le_right _ _) (Nat.min_le_right _ _)
    have hziplen : (List.zipWith (fun a b => a &&& b) (M0.take L) (G.take L)).length
        = L := by
      rw [List.length_zipWith, List.length_take, List.length_take,
        Nat.min_eq_left hLM, Nat.min_eq_left hLG, Nat.min_self]
    by_cases hiL : i < L
    · have hval : (List.zipWith (fun a b => a &&& b) (M0.take L) (G.take L)).getD i 0
          = M0.getD i 0 &&& G.getD i 0 := by
        rw [getD_zipWith_and _ _ _
            (by rw [List.length_take, Nat.min_eq_left hLM]; exact hiL)
            (by rw [List.length_take, Nat.min_eq_left hLG]; exact hiL),
          getD_take_lt _ _ _ hiL, getD_take_lt _ _ _ hiL]
      have hblt : M0.getD i 0 < 2 ^ 32 :=
        getD_lt_of_forall _ _ (lt_of_lt_of_le hiL hLM) hb
      have hblt2 : M0.getD i 0 &&& G.getD i 0 < 2 ^ 32 :=
        lt_of_le_of_lt Nat.and_le_left hblt
      have hff : M0.getD i 0 &&& G.getD i 0 &&& 4294967295
          = M0.getD i 0 &&& G.getD i 0 := and_ffffffff _ hblt2
      by_cases htrim : (List.zipWith (fun a b => a &&& b) (M0.take L) (G.take L)).length
          = D ∧ t ≠ 0
      · rw [if_pos htrim]
        have hLDe : L = D := by rw [← hziplen]; exact htrim.1
        have htz : cu_count % 32 ≠ 0 := by
          intro h0
          exact htrim.2 (ht ▸ (cuTailMask_eq_zero_iff _).2 h0)
        by_cases hieq : i = D - 1
        · subst hieq
          rw [getD_set_eq _ _ _ (by rw [hziplen]; omega), hval,
            tailDword_last cu_count D hD hcu htz, ← ht]
        · rw [getD_set_ne _ _ _ _ (fun he => hieq he.symm), hval,
            tailDword_full _ _ (by omega), hff]
      · rw [if_neg htrim, hval]
        have h32 : 32 * (i + 1) ≤ cu_count := by
          rw [hziplen] at htrim
          by_cases hLDe : L = D
          · have ht0 : t = 0 := by
              by_contra htne
              exact htrim ⟨hLDe, htne⟩
            have hcu0 : cu_count % 32 = 0 := (cuTailMask_eq_zero_iff _).1 (ht ▸ ht0)
            omega
          · omega
        rw [tailDword_full _ _ h32, hff]
    · have h0 : (if (List.zipWith (fun a b => a &&& b) (M0.take L) (G.take L)).length
            = D ∧ t ≠ 0 then
            (List.zipWith (fun a b => a &&& b) (M0.take L) (G.take L)).set (D - 1)
              (((List.zipWith (fun a b => a &&& b) (M0.take L) (G.take L)).getD
                  (D - 1) 0) &&& t)
          else List.zipWith (fun a b => a &&& b) (M0.take L) (G.take L)).getD i 0
          = 0 := by
        split
        · exact List.getD_eq_default _ _ (by rw [List.length_set, hziplen]; omega)
        · exact List.getD_eq_default _ _ (by rw [hziplen]; omega)
      rw [h0]
      rcases min_le_iff.1 (show min G.length (min M0.length D) ≤ i by omega)
        with hc | hc
      · rw [List.getD_eq_default _ _ hc, Nat.and_zero, Nat.zero_and]
      · rcases min_le_iff.1 hc with hc2 | hc2
        · rw [List.getD_eq_default _ _ hc2, Nat.zero_and, Nat.zero_and]
        · rw [tailDword_zero _ _ (by omega), Nat.and_zero]

/-- With a successful KMD call, `SetCUMasking` caches exactly the applied
mask. -/
theorem setCUMasking_cached_eq (cu_count num : Nat) (g cached m : List Nat) :
    (setCUMasking cu_count g cached true num m).cached
      = cuAppliedMask cu_count num g m := by
  unfold setCUMasking
  split <;> rfl

/-- Lemma: `GetCUMasking` reproduces the cached mask on the dwords the user asks
for. -/
theorem getCUMasking_getD (c : List Nat) (num i : Nat) (h : i < num / 32) :
    (getCUMasking c num).getD i 0 = c.getD i 0 := by
  unfold getCUMasking
  by_cases hc : i < c.length
  · rw [List.getD_append _ _ _ _ (by rw [List.length_take]; omega),
      getD_take_lt _ _ _ h]
  · rw [List.getD_append_right _ _ _ _ (by rw [List.length_take]; omega),
      getD_replicate_zero, List.getD_eq_default _ _ (by omega)]

/-- A non-reset request reads the user's dwords. -/
theorem initialUserMask_getD_user (D num : Nat) (m : List Nat) (hnz : num ≠ 0)
    (i : Nat) (hi : i < num / 32) :
    (initialUserMask D num m).getD i 0 = m.getD i 0 := by
  unfold initialUserMask
  rw [if_neg hnz]
  exact getD_take_lt _ _ _ hi

/-- A reset request reads all-ones on every physical dword. -/
theorem initialUserMask_getD_reset (D : Nat) (m : List Nat) (i : Nat) (hi : i < D) :
    (initialUserMask D 0 m).getD i 0 = 4294967295 := by
  unfold initialUserMask
  rw [if_pos rfl, List.getD_eq_getElem?_getD, List.getElem?_replicate, if_pos hi]
  rfl

/-- The synthesized user mask consists of `uint32_t` values whenever the
caller's buffer does. -/
theorem initialUserMask_bound (D num : Nat) (m : List Nat)
    (hm : ∀ x ∈ m, x < 2 ^ 32) :
    ∀ x ∈ initialUserMask D num m, x < 2 ^ 32 := by
  intro x hx
  unfold initialUserMask at hx
  split at hx
  · rw [List.eq_of_mem_replicate hx]
    norm_num
  · exact hm x (List.mem_of_mem_take hx)

/-- C6 (amended): `SetCUMasking(k, m)` followed by `GetCUMasking(k, out)`
yields, dword by dword, `m` ANDed with the process-global mask (all-ones
when absent, zero-extended past its length) and the physical tail mask;
`SetCUMasking(0, _)` resets the cached mask to all physical CUs enabled —
all-ones ANDed with the global mask and trimmed by the tail mask, not
literal all-ones; and `GetCUMasking` zero-fills every requested dword beyond
the stored mask. -/
theorem setCUMasking_roundTrip (cu_count k : Nat) (g cached m : List Nat)
    (hcu : 0 < cu_count) (hm : ∀ x ∈ m, x < 2 ^ 32) (hlen : k / 32 ≤ m.length) :
    (∀ i, i < k / 32 →
      (getCUMasking (setCUMasking cu_count g cached true k m).cached k).getD i 0
        = m.getD i 0 &&& globalExtended g i &&& tailDword cu_count i) ∧
    (∀ i, i < (cu_count + 31) / 32 →
      (setCUMasking cu_count g cached true 0 m).cached.getD i 0
        = 4294967295 &&& globalExtended g i &&& tailDword cu_count i) ∧
    (∀ (c : List Nat) (num i : Nat), c.length ≤ i →
      (getCUMasking c num).getD i 0 = 0) := by
  refine ⟨?_, ?_, ?_⟩
  · intro i hi
    have hknz : k ≠ 0 := by omega
    rw [setCUMasking_cached_eq, getCUMasking_getD _ _ _ hi,
      cuAppliedMask_getD cu_count k g m hcu (initialUserMask_bound _ _ _ hm) i,
      initialUserMask_getD_user _ _ _ hknz _ hi]
  · intro i hi
    rw [setCUMasking_cached_eq,
      cuAppliedMask_getD cu_count 0 g m hcu (initialUserMask_bound _ _ _ hm) i,
      initialUserMask_getD_reset _ _ _ hi]
  · intro c num i h
    unfold getCUMasking
    rw [List.getD_append_right _ _ _ _ (by rw [List.length_take]; omega),
      getD_replicate_zero]

/-- Witness for `setCUMasking_roundTrip`: a 48-CU agent, no global mask,
64-bit request — the second dword comes back trimmed by the tail mask. -/
theorem setCUMasking_roundTrip_witness :
    (getCUMasking (setCUMasking 48 [] [1, 1] true 64
        [2882343476, 4294901760]).cached 64).getD 1 0
      = ([2882343476, 4294901760] : List Nat).getD 1 0
          &&& globalExtended [] 1 &&& tailDword 48 1 :=
  (setCUMasking_roundTrip 48 64 [] [1, 1] [2882343476, 4294901760]
    (by decide) (by decide) (by decide)).1 1 (by decide)

/-- C6 counterexample: on a 48-CU agent `SetCUMasking(0, _)` caches
`[0xFFFFFFFF, 0xFFFF]` — the tail mask trims the second dword — which is not
the all-ones vector of `ceil(48/32) = 2` dwords. -/
theorem setCUMasking_reset_counterexample :
    (setCUMasking 48 [] [1, 1] true 0 []).cached = [4294967295, 65535] ∧
    (setCUMasking 48 [] [1, 1] true 0 []).cached
      ≠ List.replicate 2 4294967295 := by
  constructor
  · rfl
  · have h1 : (setCUMasking 48 [] [1, 1] true 0 []).cached
        = [4294967295, 65535] := rfl
    rw [h1]
    decide
